import Mathlib

/-!
Controller command decoder of the N64 RGB firmware.

Shallow embedding of `ctrl_data_to_cmd` from
`advancedRGBmod/firmware/software/controller_app/n64.c`.

* `alt_u32` values are natural numbers; the bitwise and of the source is `&&&` on `Nat`,
  which agrees with the machine operation on every value below `2 ^ 32`.
* the two function-local `static` variables are the fields of `DecoderState`, passed in and
  returned explicitly.
* `alt_u8` arithmetic is made explicit: the decrement is taken modulo `2 ^ 8`.
-/

namespace N64

/-- Modelled from the spec: the enumeration `cmd_t` is declared in `n64.h`, which is not part of
the sources at hand. The spec lists the closed set of commands; the constructor names are the
enumerator names used in `n64.c`. -/
inductive cmd_t
  | CMD_NON
  | CMD_OPEN_MENU
  | CMD_CLOSE_MENU
  | CMD_MUTE_MENU
  | CMD_UNMUTE_MENU
  | CMD_DEBLUR_QUICK_ON
  | CMD_DEBLUR_QUICK_OFF
  | CMD_15BIT_QUICK_ON
  | CMD_15BIT_QUICK_OFF
  | CMD_MENU_ENTER
  | CMD_MENU_BACK
  | CMD_MENU_UP
  | CMD_MENU_DOWN
  | CMD_MENU_LEFT
  | CMD_MENU_RIGHT
  deriving DecidableEq

open cmd_t

/-- Modelled from the spec: the digital mask and the button patterns are macros of `n64.h`,
which is not part of the sources at hand. They are the "fixed configuration values" of the
spec and are kept abstract: every definition below takes them as a parameter. -/
structure CtrlConsts where
  CTRL_GETALL_DIGITAL_MASK : Nat
  BTN_OPEN_OSDMENU : Nat
  BTN_CLOSE_OSDMENU : Nat
  BTN_MUTE_OSDMENU : Nat
  BTN_DEBLUR_QUICK_ON : Nat
  BTN_DEBLUR_QUICK_OFF : Nat
  BTN_15BIT_QUICK_ON : Nat
  BTN_15BIT_QUICK_OFF : Nat
  BTN_MENU_ENTER : Nat
  BTN_MENU_BACK : Nat
  CTRL_DU_SETMASK : Nat
  CTRL_CU_SETMASK : Nat
  CTRL_DD_SETMASK : Nat
  CTRL_CD_SETMASK : Nat
  CTRL_DL_SETMASK : Nat
  CTRL_CL_SETMASK : Nat
  CTRL_DR_SETMASK : Nat
  CTRL_CR_SETMASK : Nat

/-- The seventeen `case` labels of the `switch`, in source order. -/
def CtrlConsts.case_labels (k : CtrlConsts) : List Nat :=
  [k.BTN_OPEN_OSDMENU, k.BTN_CLOSE_OSDMENU, k.BTN_MUTE_OSDMENU,
   k.BTN_DEBLUR_QUICK_ON, k.BTN_DEBLUR_QUICK_OFF,
   k.BTN_15BIT_QUICK_ON, k.BTN_15BIT_QUICK_OFF,
   k.BTN_MENU_ENTER, k.BTN_MENU_BACK,
   k.CTRL_DU_SETMASK, k.CTRL_CU_SETMASK,
   k.CTRL_DD_SETMASK, k.CTRL_CD_SETMASK,
   k.CTRL_DL_SETMASK, k.CTRL_CL_SETMASK,
   k.CTRL_DR_SETMASK, k.CTRL_CR_SETMASK]

/-- A C `switch` only compiles when its `case` labels are pairwise distinct. -/
def CtrlConsts.labels_distinct (k : CtrlConsts) : Prop := k.case_labels.Nodup

instance (k : CtrlConsts) : Decidable k.labels_distinct := by
  unfold CtrlConsts.labels_distinct; infer_instance

/-- The macro `COMMAND_HISTORY_LENGTH` (line 40), defined as `1`. -/
def COMMAND_HISTORY_LENGTH : Nat := 1

/-- The controlling expression of the `switch`: `*ctrl_data & CTRL_GETALL_DIGITAL_MASK`. -/
def digital (k : CtrlConsts) (ctrl_data : Nat) : Nat :=
  ctrl_data &&& k.CTRL_GETALL_DIGITAL_MASK

/-- Value of the local `cmd_new` after the `switch` (lines 54-103): initialised to `CMD_NON`,
overwritten by the case whose label equals the masked controller word. The labels are tried
in source order. -/
def cmd_new (k : CtrlConsts) (ctrl_data : Nat) : cmd_t :=
  let v := digital k ctrl_data
  if v = k.BTN_OPEN_OSDMENU then CMD_OPEN_MENU
  else if v = k.BTN_CLOSE_OSDMENU then CMD_CLOSE_MENU
  else if v = k.BTN_MUTE_OSDMENU then CMD_MUTE_MENU
  else if v = k.BTN_DEBLUR_QUICK_ON then CMD_DEBLUR_QUICK_ON
  else if v = k.BTN_DEBLUR_QUICK_OFF then CMD_DEBLUR_QUICK_OFF
  else if v = k.BTN_15BIT_QUICK_ON then CMD_15BIT_QUICK_ON
  else if v = k.BTN_15BIT_QUICK_OFF then CMD_15BIT_QUICK_OFF
  else if v = k.BTN_MENU_ENTER then CMD_MENU_ENTER
  else if v = k.BTN_MENU_BACK then CMD_MENU_BACK
  else if v = k.CTRL_DU_SETMASK ∨ v = k.CTRL_CU_SETMASK then CMD_MENU_UP
  else if v = k.CTRL_DD_SETMASK ∨ v = k.CTRL_CD_SETMASK then CMD_MENU_DOWN
  else if v = k.CTRL_DL_SETMASK ∨ v = k.CTRL_CL_SETMASK then CMD_MENU_LEFT
  else if v = k.CTRL_DR_SETMASK ∨ v = k.CTRL_CR_SETMASK then CMD_MENU_RIGHT
  else CMD_NON

/-- The two `static` locals of `ctrl_data_to_cmd`: `cmd_pre` and the `alt_u8` counter
`cmd_history_cnt`. -/
structure DecoderState where
  cmd_pre : cmd_t
  cmd_history_cnt : Nat
  deriving DecidableEq

/-- Initialisers of the statics: `cmd_pre = CMD_NON`, `cmd_history_cnt = COMMAND_HISTORY_LENGTH`. -/
def DecoderState.init : DecoderState := ⟨CMD_NON, COMMAND_HISTORY_LENGTH⟩

/-- The statement `cmd_history_cnt--` on an `alt_u8`: subtraction of one modulo `2 ^ 8`. -/
def alt_u8_dec (n : Nat) : Nat := (n + 255) % 256

/-- One call of `ctrl_data_to_cmd` (lines 52-118): returned command and the statics after
the call. -/
def ctrl_data_to_cmd (k : CtrlConsts) (s : DecoderState) (ctrl_data : Nat) :
    cmd_t × DecoderState :=
  let c := cmd_new k ctrl_data
  if s.cmd_pre ≠ c then
    if s.cmd_history_cnt = 0 then
      let c1 := if s.cmd_pre = CMD_MUTE_MENU ∧ c = CMD_NON then CMD_UNMUTE_MENU else c
      (c1, ⟨c1, COMMAND_HISTORY_LENGTH⟩)
    else
      (CMD_NON, ⟨s.cmd_pre, alt_u8_dec s.cmd_history_cnt⟩)
  else
    (CMD_NON, ⟨s.cmd_pre, if c = CMD_NON then 0 else COMMAND_HISTORY_LENGTH⟩)

/-- Consecutive calls of `ctrl_data_to_cmd`, one per controller word: the returned commands in
call order and the statics after the last call. -/
def ctrl_calls (k : CtrlConsts) : DecoderState → List Nat → List cmd_t × DecoderState
  | s, [] => ([], s)
  | s, r :: rs =>
    let out := ctrl_data_to_cmd k s r
    let rest := ctrl_calls k out.2 rs
    (out.1 :: rest.1, rest.2)

/-- A sample assignment of the constants, used to instantiate the general statements: digital
lines in the low sixteen bits, one bit per button (A, B, Z, Start, D-pad, L, R, C buttons). -/
def sampleConsts : CtrlConsts where
  CTRL_GETALL_DIGITAL_MASK := 0xFFFF
  BTN_OPEN_OSDMENU := 0x8C80
  BTN_CLOSE_OSDMENU := 0x4C40
  BTN_MUTE_OSDMENU := 0x0404
  BTN_DEBLUR_QUICK_ON := 0x880C
  BTN_DEBLUR_QUICK_OFF := 0x480C
  BTN_15BIT_QUICK_ON := 0x100C
  BTN_15BIT_QUICK_OFF := 0x200C
  BTN_MENU_ENTER := 0x0001
  BTN_MENU_BACK := 0x0002
  CTRL_DU_SETMASK := 0x0010
  CTRL_CU_SETMASK := 0x1000
  CTRL_DD_SETMASK := 0x0020
  CTRL_CD_SETMASK := 0x2000
  CTRL_DL_SETMASK := 0x0040
  CTRL_CL_SETMASK := 0x4000
  CTRL_DR_SETMASK := 0x0080
  CTRL_CR_SETMASK := 0x8000

/-- The decoder state of the spec (section 3): `lastStable` and the integer `pendingStreak`. -/
structure SpecState where
  lastStable : cmd_t
  pendingStreak : Nat
  deriving DecidableEq

/-- The start state of the spec: `lastStable = NONE`, `pendingStreak = HISTORY_LENGTH`. -/
def SpecState.start : SpecState := ⟨CMD_NON, COMMAND_HISTORY_LENGTH⟩

/-- The debounce state machine as written in spec section 4.1, Step 2, on the candidate of
Step 1: on confirmation `lastStable` is set to the un-overridden candidate while the possibly
overridden command is returned; otherwise the streak is decremented (integer subtraction), or
reset in the no-change case. -/
def spec_decode (k : CtrlConsts) (s : SpecState) (raw : Nat) : cmd_t × SpecState :=
  let candidate := cmd_new k raw
  if candidate ≠ s.lastStable then
    if s.pendingStreak = 0 then
      let emitted :=
        if s.lastStable = CMD_MUTE_MENU ∧ candidate = CMD_NON then CMD_UNMUTE_MENU else candidate
      (emitted, ⟨candidate, COMMAND_HISTORY_LENGTH⟩)
    else
      (CMD_NON, ⟨s.lastStable, s.pendingStreak - 1⟩)
  else
    (CMD_NON, ⟨s.lastStable, if candidate = CMD_NON then 0 else COMMAND_HISTORY_LENGTH⟩)

/-- The state machine of spec section 4.1, Step 2, with one change: on confirmation
`lastStable` is set to the returned (possibly overridden) command. -/
def spec_decode_emitted (k : CtrlConsts) (s : SpecState) (raw : Nat) : cmd_t × SpecState :=
  let candidate := cmd_new k raw
  if candidate ≠ s.lastStable then
    if s.pendingStreak = 0 then
      let emitted :=
        if s.lastStable = CMD_MUTE_MENU ∧ candidate = CMD_NON then CMD_UNMUTE_MENU else candidate
      (emitted, ⟨emitted, COMMAND_HISTORY_LENGTH⟩)
    else
      (CMD_NON, ⟨s.lastStable, s.pendingStreak - 1⟩)
  else
    (CMD_NON, ⟨s.lastStable, if candidate = CMD_NON then 0 else COMMAND_HISTORY_LENGTH⟩)

/-- The commands returned by a spec state machine `step` on a sequence of raw snapshots. -/
def spec_outputs (step : SpecState → Nat → cmd_t × SpecState) : SpecState → List Nat → List cmd_t
  | _, [] => []
  | s, r :: rs => (step s r).1 :: spec_outputs step (step s r).2 rs

/-- Number of calls in a sequence of returned commands that returned something other than
`CMD_NON`. -/
def events (cs : List cmd_t) : Nat := cs.countP (fun c => decide (c ≠ CMD_NON))

/-! ## The three branches of the debounce logic (lines 105-117) -/

/-- Confirmation branch: `cmd_pre != cmd_new` and `cmd_history_cnt == 0`. -/
lemma step_confirm (k : CtrlConsts) (s : DecoderState) (r : Nat)
    (hne : s.cmd_pre ≠ cmd_new k r) (h0 : s.cmd_history_cnt = 0) :
    ctrl_data_to_cmd k s r =
      (if s.cmd_pre = CMD_MUTE_MENU ∧ cmd_new k r = CMD_NON then CMD_UNMUTE_MENU else cmd_new k r,
       ⟨if s.cmd_pre = CMD_MUTE_MENU ∧ cmd_new k r = CMD_NON then CMD_UNMUTE_MENU else cmd_new k r,
        COMMAND_HISTORY_LENGTH⟩) := by
  simp [ctrl_data_to_cmd, hne, h0]

/-- Pending branch: `cmd_pre != cmd_new` and `cmd_history_cnt != 0`. -/
lemma step_pending (k : CtrlConsts) (s : DecoderState) (r : Nat)
    (hne : s.cmd_pre ≠ cmd_new k r) (h0 : s.cmd_history_cnt ≠ 0) :
    ctrl_data_to_cmd k s r = (CMD_NON, ⟨s.cmd_pre, alt_u8_dec s.cmd_history_cnt⟩) := by
  simp [ctrl_data_to_cmd, hne, h0]

/-- No-change branch: `cmd_pre == cmd_new`. -/
lemma step_same (k : CtrlConsts) (s : DecoderState) (r : Nat)
    (heq : s.cmd_pre = cmd_new k r) :
    ctrl_data_to_cmd k s r =
      (CMD_NON, ⟨s.cmd_pre, if cmd_new k r = CMD_NON then 0 else COMMAND_HISTORY_LENGTH⟩) := by
  simp [ctrl_data_to_cmd, heq]

lemma ctrl_calls_nil (k : CtrlConsts) (s : DecoderState) : ctrl_calls k s [] = ([], s) := rfl

lemma ctrl_calls_cons (k : CtrlConsts) (s : DecoderState) (r : Nat) (rs : List Nat) :
    ctrl_calls k s (r :: rs) =
      ((ctrl_data_to_cmd k s r).1 :: (ctrl_calls k (ctrl_data_to_cmd k s r).2 rs).1,
       (ctrl_calls k (ctrl_data_to_cmd k s r).2 rs).2) := rfl

/-! ## Debounce sequences -/

/-- C1: from the initial statics (`CMD_NON`, `COMMAND_HISTORY_LENGTH`), two consecutive calls whose
controller words both decode to the same command `c` other than `CMD_NON`: the first call returns
`CMD_NON` and leaves the counter at `0` with `cmd_pre` still `CMD_NON`; the second call returns
`c` and leaves `cmd_pre = c`. -/
theorem c1_initial_confirm_on_second_call (k : CtrlConsts) (r1 r2 : Nat) (c : cmd_t)
    (hc : c ≠ CMD_NON) (h1 : cmd_new k r1 = c) (h2 : cmd_new k r2 = c) :
    (ctrl_data_to_cmd k DecoderState.init r1).1 = CMD_NON ∧
    (ctrl_data_to_cmd k DecoderState.init r1).2.cmd_history_cnt = 0 ∧
    (ctrl_data_to_cmd k DecoderState.init r1).2.cmd_pre = CMD_NON ∧
    (ctrl_data_to_cmd k (ctrl_data_to_cmd k DecoderState.init r1).2 r2).1 = c ∧
    (ctrl_data_to_cmd k (ctrl_data_to_cmd k DecoderState.init r1).2 r2).2.cmd_pre = c := by
  have hne : DecoderState.init.cmd_pre ≠ cmd_new k r1 := by
    rw [h1]; exact fun h => hc h.symm
  have e1 : ctrl_data_to_cmd k DecoderState.init r1 = (CMD_NON, ⟨CMD_NON, 0⟩) := by
    rw [step_pending k _ r1 hne (by decide)]; rfl
  have hne2 : (⟨CMD_NON, 0⟩ : DecoderState).cmd_pre ≠ cmd_new k r2 := by
    rw [h2]; exact fun h => hc h.symm
  have e2 : ctrl_data_to_cmd k ⟨CMD_NON, 0⟩ r2 = (c, ⟨c, COMMAND_HISTORY_LENGTH⟩) := by
    rw [step_confirm k _ r2 hne2 rfl]; simp [h2]
  simp [e1, e2]

/-- Instance of C1 with the D-pad-up pattern of the sample constants (`CMD_MENU_UP`). -/
theorem c1_initial_confirm_on_second_call_witness :
    cmd_new sampleConsts 0x10 = CMD_MENU_UP ∧
    (ctrl_data_to_cmd sampleConsts DecoderState.init 0x10).1 = CMD_NON ∧
    (ctrl_data_to_cmd sampleConsts DecoderState.init 0x10).2.cmd_history_cnt = 0 ∧
    (ctrl_data_to_cmd sampleConsts DecoderState.init 0x10).2.cmd_pre = CMD_NON ∧
    (ctrl_data_to_cmd sampleConsts
      (ctrl_data_to_cmd sampleConsts DecoderState.init 0x10).2 0x10).1 = CMD_MENU_UP ∧
    (ctrl_data_to_cmd sampleConsts
      (ctrl_data_to_cmd sampleConsts DecoderState.init 0x10).2 0x10).2.cmd_pre = CMD_MENU_UP :=
  ⟨by decide,
   c1_initial_confirm_on_second_call sampleConsts 0x10 0x10 CMD_MENU_UP
     (by decide) (by decide) (by decide)⟩

/-- C2: with `CMD_MUTE_MENU` stable (`cmd_pre = CMD_MUTE_MENU`, counter at
`COMMAND_HISTORY_LENGTH`), two consecutive calls whose controller words decode to `CMD_NON`:
the first returns `CMD_NON`, the second (confirming) call returns `CMD_UNMUTE_MENU`. -/
theorem c2_mute_release_returns_unmute (k : CtrlConsts) (r1 r2 : Nat)
    (h1 : cmd_new k r1 = CMD_NON) (h2 : cmd_new k r2 = CMD_NON) :
    (ctrl_data_to_cmd k ⟨CMD_MUTE_MENU, COMMAND_HISTORY_LENGTH⟩ r1).1 = CMD_NON ∧
    (ctrl_data_to_cmd k
      (ctrl_data_to_cmd k ⟨CMD_MUTE_MENU, COMMAND_HISTORY_LENGTH⟩ r1).2 r2).1
        = CMD_UNMUTE_MENU ∧
    (ctrl_data_to_cmd k
      (ctrl_data_to_cmd k ⟨CMD_MUTE_MENU, COMMAND_HISTORY_LENGTH⟩ r1).2 r2).1 ≠ CMD_NON := by
  have e1 : ctrl_data_to_cmd k ⟨CMD_MUTE_MENU, COMMAND_HISTORY_LENGTH⟩ r1 =
      (CMD_NON, ⟨CMD_MUTE_MENU, 0⟩) := by
    rw [step_pending k _ r1 (by rw [h1]; decide) (by decide)]; rfl
  have e2 : ctrl_data_to_cmd k ⟨CMD_MUTE_MENU, 0⟩ r2 =
      (CMD_UNMUTE_MENU, ⟨CMD_UNMUTE_MENU, COMMAND_HISTORY_LENGTH⟩) := by
    rw [step_confirm k _ r2 (by rw [h2]; decide) rfl]; simp [h2]
  simp [e1, e2]

/-- Instance of C2 with the all-released controller word of the sample constants. -/
theorem c2_mute_release_returns_unmute_witness :
    cmd_new sampleConsts 0 = CMD_NON ∧
    (ctrl_data_to_cmd sampleConsts ⟨CMD_MUTE_MENU, COMMAND_HISTORY_LENGTH⟩ 0).1 = CMD_NON ∧
    (ctrl_data_to_cmd sampleConsts
      (ctrl_data_to_cmd sampleConsts ⟨CMD_MUTE_MENU, COMMAND_HISTORY_LENGTH⟩ 0).2 0).1
        = CMD_UNMUTE_MENU ∧
    (ctrl_data_to_cmd sampleConsts
      (ctrl_data_to_cmd sampleConsts ⟨CMD_MUTE_MENU, COMMAND_HISTORY_LENGTH⟩ 0).2 0).1
        ≠ CMD_NON :=
  ⟨by decide, c2_mute_release_returns_unmute sampleConsts 0 0 (by decide) (by decide)⟩

/-- C3 (as stated, refuted): with the sample constants the all-released word decodes to
`CMD_NON`, yet the confirming call of a mute release (`cmd_pre = CMD_MUTE_MENU`, counter `0`)
leaves `cmd_pre = CMD_UNMUTE_MENU`, not `CMD_NON`; and the statics reached from the initial ones
by two mute words followed by two all-released words have `cmd_pre = CMD_UNMUTE_MENU`. -/
theorem c3_counterexample :
    cmd_new sampleConsts 0 = CMD_NON ∧
    cmd_new sampleConsts 0x404 = CMD_MUTE_MENU ∧
    (ctrl_data_to_cmd sampleConsts ⟨CMD_MUTE_MENU, 0⟩ 0).2.cmd_pre = CMD_UNMUTE_MENU ∧
    (ctrl_data_to_cmd sampleConsts ⟨CMD_MUTE_MENU, 0⟩ 0).2.cmd_pre ≠ CMD_NON ∧
    (ctrl_calls sampleConsts DecoderState.init [0x404, 0x404, 0, 0]).2.cmd_pre
      = CMD_UNMUTE_MENU := by
  decide

/-- C3 (amended): on the confirming call of a mute release (`cmd_pre = CMD_MUTE_MENU`, the
controller word decodes to `CMD_NON`, counter `0` before the call) the call returns
`CMD_UNMUTE_MENU` and stores that same overridden command in `cmd_pre`, with the counter reset to
`COMMAND_HISTORY_LENGTH`; statics with `cmd_pre = CMD_UNMUTE_MENU` are reached from the initial
ones by two calls decoding to `CMD_MUTE_MENU` followed by two calls decoding to `CMD_NON`. -/
theorem c3_mute_release_stores_unmute (k : CtrlConsts) (s : DecoderState)
    (r rm1 rm2 rn1 rn2 : Nat)
    (hs : s.cmd_pre = CMD_MUTE_MENU) (h0 : s.cmd_history_cnt = 0)
    (hr : cmd_new k r = CMD_NON)
    (hm1 : cmd_new k rm1 = CMD_MUTE_MENU) (hm2 : cmd_new k rm2 = CMD_MUTE_MENU)
    (hn1 : cmd_new k rn1 = CMD_NON) (hn2 : cmd_new k rn2 = CMD_NON) :
    ctrl_data_to_cmd k s r = (CMD_UNMUTE_MENU, ⟨CMD_UNMUTE_MENU, COMMAND_HISTORY_LENGTH⟩) ∧
    ctrl_calls k DecoderState.init [rm1, rm2, rn1, rn2] =
      ([CMD_NON, CMD_MUTE_MENU, CMD_NON, CMD_UNMUTE_MENU],
       ⟨CMD_UNMUTE_MENU, COMMAND_HISTORY_LENGTH⟩) := by
  constructor
  · rw [step_confirm k s r (by rw [hs, hr]; decide) h0]; simp [hs, hr]
  · have e1 : ctrl_data_to_cmd k DecoderState.init rm1 = (CMD_NON, ⟨CMD_NON, 0⟩) := by
      rw [step_pending k _ rm1 (by rw [hm1]; decide) (by decide)]; rfl
    have e2 : ctrl_data_to_cmd k ⟨CMD_NON, 0⟩ rm2 =
        (CMD_MUTE_MENU, ⟨CMD_MUTE_MENU, COMMAND_HISTORY_LENGTH⟩) := by
      rw [step_confirm k _ rm2 (by rw [hm2]; decide) rfl]; simp [hm2]
    have e3 : ctrl_data_to_cmd k ⟨CMD_MUTE_MENU, COMMAND_HISTORY_LENGTH⟩ rn1 =
        (CMD_NON, ⟨CMD_MUTE_MENU, 0⟩) := by
      rw [step_pending k _ rn1 (by rw [hn1]; decide) (by decide)]; rfl
    have e4 : ctrl_data_to_cmd k ⟨CMD_MUTE_MENU, 0⟩ rn2 =
        (CMD_UNMUTE_MENU, ⟨CMD_UNMUTE_MENU, COMMAND_HISTORY_LENGTH⟩) := by
      rw [step_confirm k _ rn2 (by rw [hn2]; decide) rfl]; simp [hn2]
    simp [ctrl_calls_cons, ctrl_calls_nil, e1, e2, e3, e4]

/-- Instance of the amended C3 with the mute pattern and the all-released word of the sample
constants. -/
theorem c3_mute_release_stores_unmute_witness :
    cmd_new sampleConsts 0 = CMD_NON ∧ cmd_new sampleConsts 0x404 = CMD_MUTE_MENU ∧
    (ctrl_data_to_cmd sampleConsts ⟨CMD_MUTE_MENU, 0⟩ 0 =
      (CMD_UNMUTE_MENU, ⟨CMD_UNMUTE_MENU, COMMAND_HISTORY_LENGTH⟩) ∧
     ctrl_calls sampleConsts DecoderState.init [0x404, 0x404, 0, 0] =
      ([CMD_NON, CMD_MUTE_MENU, CMD_NON, CMD_UNMUTE_MENU],
       ⟨CMD_UNMUTE_MENU, COMMAND_HISTORY_LENGTH⟩)) :=
  ⟨by decide, by decide,
   c3_mute_release_stores_unmute sampleConsts ⟨CMD_MUTE_MENU, 0⟩ 0 0x404 0x404 0 0
     rfl rfl (by decide) (by decide) (by decide) (by decide) (by decide)⟩

/-- C4 (as stated, refuted): with the sample constants, the held idle statics (`CMD_NON`, `0`)
are reached from the initial ones by two all-released words (the second one is a call whose
candidate is `CMD_NON` while `cmd_pre` is already `CMD_NON`); from there a single D-pad-up word
already returns `CMD_MENU_UP`, and after a following all-released word `cmd_pre` is
`CMD_MENU_UP`, not `CMD_NON`. -/
theorem c4_counterexample :
    cmd_new sampleConsts 0 = CMD_NON ∧
    cmd_new sampleConsts 0x10 = CMD_MENU_UP ∧
    (ctrl_calls sampleConsts DecoderState.init [0, 0]).2 = ⟨CMD_NON, 0⟩ ∧
    ctrl_calls sampleConsts ⟨CMD_NON, 0⟩ [0x10, 0] =
      ([CMD_MENU_UP, CMD_NON], ⟨CMD_MENU_UP, 0⟩) := by
  decide

/-- C4 (amended): let `s` have `cmd_pre = CMD_NON` and let a call with a word decoding to
`CMD_NON` hold it; the statics are then (`CMD_NON`, `0`). For every command `c` other than
`CMD_NON`, a single call with a word decoding to `c` confirms it from there: the call returns
`c` and leaves (`c`, `COMMAND_HISTORY_LENGTH`); a following call decoding to `CMD_NON` returns
`CMD_NON` and leaves (`c`, `0`). From the idle statics whose counter is still
`COMMAND_HISTORY_LENGTH` (such as the initial ones): the first call returns `CMD_NON` whatever
its word; a first call decoding to `c` leaves (`CMD_NON`, `0`); `c` followed by `CMD_NON`
returns `CMD_NON` twice and leaves (`CMD_NON`, `0`); and a word decoding to any command other
than `CMD_NON` (`c` itself or another one) followed by `c` returns `CMD_NON` and then `c`,
leaving (`c`, `COMMAND_HISTORY_LENGTH`). -/
theorem c4_held_idle_confirms_at_once (k : CtrlConsts) (s : DecoderState)
    (r0 rc rn ra rd : Nat) (c : cmd_t)
    (hs : s.cmd_pre = CMD_NON) (h0 : cmd_new k r0 = CMD_NON) (hc : c ≠ CMD_NON)
    (hrc : cmd_new k rc = c) (hrn : cmd_new k rn = CMD_NON)
    (hrd : cmd_new k rd ≠ CMD_NON) :
    (ctrl_data_to_cmd k s r0).2 = ⟨CMD_NON, 0⟩ ∧
    ctrl_data_to_cmd k (ctrl_data_to_cmd k s r0).2 rc = (c, ⟨c, COMMAND_HISTORY_LENGTH⟩) ∧
    ctrl_calls k (ctrl_data_to_cmd k s r0).2 [rc, rn] = ([c, CMD_NON], ⟨c, 0⟩) ∧
    (ctrl_data_to_cmd k ⟨CMD_NON, COMMAND_HISTORY_LENGTH⟩ ra).1 = CMD_NON ∧
    ctrl_data_to_cmd k ⟨CMD_NON, COMMAND_HISTORY_LENGTH⟩ rc = (CMD_NON, ⟨CMD_NON, 0⟩) ∧
    ctrl_calls k ⟨CMD_NON, COMMAND_HISTORY_LENGTH⟩ [rc, rn] =
      ([CMD_NON, CMD_NON], ⟨CMD_NON, 0⟩) ∧
    ctrl_calls k ⟨CMD_NON, COMMAND_HISTORY_LENGTH⟩ [rd, rc] =
      ([CMD_NON, c], ⟨c, COMMAND_HISTORY_LENGTH⟩) := by
  have hc2 : CMD_NON ≠ c := fun h => hc h.symm
  have e0 : ctrl_data_to_cmd k s r0 = (CMD_NON, ⟨CMD_NON, 0⟩) := by
    rw [step_same k s r0 (by rw [hs, h0])]; simp [hs, h0]
  have e1 : ctrl_data_to_cmd k ⟨CMD_NON, 0⟩ rc = (c, ⟨c, COMMAND_HISTORY_LENGTH⟩) := by
    rw [step_confirm k _ rc (by rw [hrc]; exact hc2) rfl]; simp [hrc]
  have e2 : ctrl_data_to_cmd k ⟨c, COMMAND_HISTORY_LENGTH⟩ rn = (CMD_NON, ⟨c, 0⟩) := by
    rw [step_pending k _ rn (by rw [hrn]; exact hc) (by simp [COMMAND_HISTORY_LENGTH])]
    simp [alt_u8_dec, COMMAND_HISTORY_LENGTH]
  have e3 : ctrl_data_to_cmd k ⟨CMD_NON, COMMAND_HISTORY_LENGTH⟩ rc =
      (CMD_NON, ⟨CMD_NON, 0⟩) := by
    rw [step_pending k _ rc (by rw [hrc]; exact hc2) (by decide)]; rfl
  have e4 : ctrl_data_to_cmd k ⟨CMD_NON, 0⟩ rn = (CMD_NON, ⟨CMD_NON, 0⟩) := by
    rw [step_same k _ rn (by rw [hrn])]; simp [hrn]
  have e5 : ctrl_data_to_cmd k ⟨CMD_NON, COMMAND_HISTORY_LENGTH⟩ rd =
      (CMD_NON, ⟨CMD_NON, 0⟩) := by
    rw [step_pending k _ rd (fun h => hrd h.symm) (by decide)]; rfl
  have e6 : (ctrl_data_to_cmd k ⟨CMD_NON, COMMAND_HISTORY_LENGTH⟩ ra).1 = CMD_NON := by
    by_cases heq : (⟨CMD_NON, COMMAND_HISTORY_LENGTH⟩ : DecoderState).cmd_pre = cmd_new k ra
    · rw [step_same k _ ra heq]
    · rw [step_pending k _ ra heq (by decide)]
  refine ⟨?_, ?_, ?_, e6, e3, ?_, ?_⟩ <;>
    simp [ctrl_calls_cons, ctrl_calls_nil, e0, e1, e2, e3, e4, e5]

/-- Instance of the amended C4 with the D-pad-up pattern of the sample constants, the held idle
statics being reached from the initial ones by an all-released word; the word before the
confirming one in the last part is the enter pattern. -/
theorem c4_held_idle_confirms_at_once_witness :
    cmd_new sampleConsts 0 = CMD_NON ∧ cmd_new sampleConsts 0x10 = CMD_MENU_UP ∧
    cmd_new sampleConsts 0x1 = CMD_MENU_ENTER ∧
    ((ctrl_data_to_cmd sampleConsts DecoderState.init 0).2 = ⟨CMD_NON, 0⟩ ∧
     ctrl_data_to_cmd sampleConsts (ctrl_data_to_cmd sampleConsts DecoderState.init 0).2 0x10 =
       (CMD_MENU_UP, ⟨CMD_MENU_UP, COMMAND_HISTORY_LENGTH⟩) ∧
     ctrl_calls sampleConsts (ctrl_data_to_cmd sampleConsts DecoderState.init 0).2 [0x10, 0] =
       ([CMD_MENU_UP, CMD_NON], ⟨CMD_MENU_UP, 0⟩) ∧
     (ctrl_data_to_cmd sampleConsts ⟨CMD_NON, COMMAND_HISTORY_LENGTH⟩ 0x8C80).1 = CMD_NON ∧
     ctrl_data_to_cmd sampleConsts ⟨CMD_NON, COMMAND_HISTORY_LENGTH⟩ 0x10 =
       (CMD_NON, ⟨CMD_NON, 0⟩) ∧
     ctrl_calls sampleConsts ⟨CMD_NON, COMMAND_HISTORY_LENGTH⟩ [0x10, 0] =
       ([CMD_NON, CMD_NON], ⟨CMD_NON, 0⟩) ∧
     ctrl_calls sampleConsts ⟨CMD_NON, COMMAND_HISTORY_LENGTH⟩ [0x1, 0x10] =
       ([CMD_NON, CMD_MENU_UP], ⟨CMD_MENU_UP, COMMAND_HISTORY_LENGTH⟩)) :=
  ⟨by decide, by decide, by decide,
   c4_held_idle_confirms_at_once sampleConsts DecoderState.init 0 0x10 0 0x8C80 0x1 CMD_MENU_UP
     rfl (by decide) (by decide) (by decide) (by decide) (by decide)⟩

/-- C5: with a command `c` other than `CMD_NON` stable (`cmd_pre = c`, counter at
`COMMAND_HISTORY_LENGTH`), one call decoding to `CMD_NON` followed by one call decoding to `c`
again returns `CMD_NON` on both calls; afterwards `cmd_pre` is still `c` and the counter is back
at `COMMAND_HISTORY_LENGTH`. -/
theorem c5_interrupted_release_is_silent (k : CtrlConsts) (rn rc : Nat) (c : cmd_t)
    (hc : c ≠ CMD_NON) (hrn : cmd_new k rn = CMD_NON) (hrc : cmd_new k rc = c) :
    ctrl_calls k ⟨c, COMMAND_HISTORY_LENGTH⟩ [rn, rc] =
      ([CMD_NON, CMD_NON], ⟨c, COMMAND_HISTORY_LENGTH⟩) := by
  have e1 : ctrl_data_to_cmd k ⟨c, COMMAND_HISTORY_LENGTH⟩ rn = (CMD_NON, ⟨c, 0⟩) := by
    rw [step_pending k _ rn (by rw [hrn]; exact hc) (by simp [COMMAND_HISTORY_LENGTH])]
    simp [alt_u8_dec, COMMAND_HISTORY_LENGTH]
  have e2 : ctrl_data_to_cmd k ⟨c, 0⟩ rc = (CMD_NON, ⟨c, COMMAND_HISTORY_LENGTH⟩) := by
    rw [step_same k _ rc (by rw [hrc])]; simp [hrc, hc]
  simp [ctrl_calls_cons, ctrl_calls_nil, e1, e2]

/-- Instance of C5 with `CMD_MENU_UP` stable under the sample constants. -/
theorem c5_interrupted_release_is_silent_witness :
    cmd_new sampleConsts 0 = CMD_NON ∧ cmd_new sampleConsts 0x10 = CMD_MENU_UP ∧
    ctrl_calls sampleConsts ⟨CMD_MENU_UP, COMMAND_HISTORY_LENGTH⟩ [0, 0x10] =
      ([CMD_NON, CMD_NON], ⟨CMD_MENU_UP, COMMAND_HISTORY_LENGTH⟩) :=
  ⟨by decide, by decide,
   c5_interrupted_release_is_silent sampleConsts 0 0x10 CMD_MENU_UP
     (by decide) (by decide) (by decide)⟩

/-! ## Idle, counter range and frame properties -/

lemma idle_calls (k : CtrlConsts) (rs : List Nat) (hrs : ∀ x ∈ rs, cmd_new k x = CMD_NON) :
    ctrl_calls k ⟨CMD_NON, 0⟩ rs = (List.replicate rs.length CMD_NON, ⟨CMD_NON, 0⟩) := by
  induction rs with
  | nil => rfl
  | cons r rs ih =>
    have hr : cmd_new k r = CMD_NON := hrs r (List.mem_cons_self r rs)
    have e : ctrl_data_to_cmd k ⟨CMD_NON, 0⟩ r = (CMD_NON, ⟨CMD_NON, 0⟩) := by
      rw [step_same k _ r (by rw [hr])]; simp [hr]
    have ih2 := ih (fun x hx => hrs x (List.mem_cons_of_mem r hx))
    simp [ctrl_calls_cons, e, ih2, List.replicate_succ]

lemma step_cnt_le (k : CtrlConsts) (s : DecoderState) (r : Nat)
    (hs : s.cmd_history_cnt ≤ COMMAND_HISTORY_LENGTH) :
    (ctrl_data_to_cmd k s r).2.cmd_history_cnt ≤ COMMAND_HISTORY_LENGTH := by
  unfold ctrl_data_to_cmd
  simp only [COMMAND_HISTORY_LENGTH, alt_u8_dec] at *
  split_ifs <;> first | (simp; done) | (simp; omega)

lemma calls_cnt_le (k : CtrlConsts) (rs : List Nat) :
    ∀ s : DecoderState, s.cmd_history_cnt ≤ COMMAND_HISTORY_LENGTH →
      (ctrl_calls k s rs).2.cmd_history_cnt ≤ COMMAND_HISTORY_LENGTH := by
  induction rs with
  | nil => intro s hs; exact hs
  | cons r rs ih =>
    intro s hs
    rw [ctrl_calls_cons]
    exact ih _ (step_cnt_le k s r hs)

/-- C6: idle is a fixed point. For statics with `cmd_pre = CMD_NON` (any counter value) and a
controller word decoding to `CMD_NON`, the call returns `CMD_NON` and leaves the statics at
(`CMD_NON`, `0`); any further run of words decoding to `CMD_NON` returns `CMD_NON` on every call
and ends in (`CMD_NON`, `0`). -/
theorem c6_idle_fixed_point (k : CtrlConsts) (s : DecoderState) (r : Nat) (rs : List Nat)
    (hs : s.cmd_pre = CMD_NON) (hr : cmd_new k r = CMD_NON)
    (hrs : ∀ x ∈ rs, cmd_new k x = CMD_NON) :
    ctrl_data_to_cmd k s r = (CMD_NON, ⟨CMD_NON, 0⟩) ∧
    ctrl_calls k s (r :: rs) = (List.replicate (rs.length + 1) CMD_NON, ⟨CMD_NON, 0⟩) := by
  have e : ctrl_data_to_cmd k s r = (CMD_NON, ⟨CMD_NON, 0⟩) := by
    rw [step_same k s r (by rw [hs, hr])]; simp [hs, hr]
  refine ⟨e, ?_⟩
  rw [ctrl_calls_cons, e]
  simp [idle_calls k rs hrs, List.replicate_succ]

/-- Instance of C6: idle statics with counter `7`, four all-released words under the sample
constants. -/
theorem c6_idle_fixed_point_witness :
    cmd_new sampleConsts 0 = CMD_NON ∧
    ctrl_data_to_cmd sampleConsts ⟨CMD_NON, 7⟩ 0 = (CMD_NON, ⟨CMD_NON, 0⟩) ∧
    ctrl_calls sampleConsts ⟨CMD_NON, 7⟩ [0, 0, 0, 0] =
      ([CMD_NON, CMD_NON, CMD_NON, CMD_NON], ⟨CMD_NON, 0⟩) :=
  ⟨by decide,
   c6_idle_fixed_point sampleConsts ⟨CMD_NON, 7⟩ 0 [0, 0, 0] rfl (by decide) (by decide)⟩

/-- C7: the counter stays in `[0, COMMAND_HISTORY_LENGTH]`. It holds for the initial statics,
every call preserves it whatever the controller word, hence it holds after every sequence of
calls from the initial statics. The decrement never wraps: for every `alt_u8` counter value `t`,
a call that takes the pending branch has a non-zero counter and leaves exactly one less, and a
call entered with counter `0` leaves a counter within the range. -/
theorem c7_counter_in_range (k : CtrlConsts) (s t : DecoderState) (r : Nat) (rs : List Nat)
    (hs : s.cmd_history_cnt ≤ COMMAND_HISTORY_LENGTH) (ht : t.cmd_history_cnt < 256) :
    DecoderState.init.cmd_history_cnt ≤ COMMAND_HISTORY_LENGTH ∧
    (ctrl_data_to_cmd k s r).2.cmd_history_cnt ≤ COMMAND_HISTORY_LENGTH ∧
    (ctrl_calls k DecoderState.init rs).2.cmd_history_cnt ≤ COMMAND_HISTORY_LENGTH ∧
    (t.cmd_pre ≠ cmd_new k r → t.cmd_history_cnt ≠ 0 →
      (ctrl_data_to_cmd k t r).2.cmd_history_cnt + 1 = t.cmd_history_cnt) ∧
    (t.cmd_history_cnt = 0 →
      (ctrl_data_to_cmd k t r).2.cmd_history_cnt ≤ COMMAND_HISTORY_LENGTH) := by
  refine ⟨le_refl _, step_cnt_le k s r hs, calls_cnt_le k rs _ (le_refl _), ?_, ?_⟩
  · intro hne h0
    rw [step_pending k t r hne h0]
    simp only [alt_u8_dec]
    omega
  · intro h0
    exact step_cnt_le k t r (by rw [h0]; exact Nat.zero_le _)

/-- Instance of C7 under the sample constants: stable `CMD_MENU_UP` with counter `1`, a counter
value `200`, and an all-released word. -/
theorem c7_counter_in_range_witness :
    (1 : Nat) ≤ COMMAND_HISTORY_LENGTH ∧ (200 : Nat) < 256 ∧
    (ctrl_data_to_cmd sampleConsts ⟨CMD_MENU_UP, 1⟩ 0).2.cmd_history_cnt
      ≤ COMMAND_HISTORY_LENGTH ∧
    (ctrl_calls sampleConsts DecoderState.init [0x10, 0x10, 0, 0x404]).2.cmd_history_cnt
      ≤ COMMAND_HISTORY_LENGTH ∧
    (ctrl_data_to_cmd sampleConsts ⟨CMD_MENU_UP, 200⟩ 0).2.cmd_history_cnt + 1 = 200 :=
  ⟨by decide, by decide,
   (c7_counter_in_range sampleConsts ⟨CMD_MENU_UP, 1⟩ ⟨CMD_MENU_UP, 200⟩ 0
      [0x10, 0x10, 0, 0x404] (by decide) (by decide)).2.1,
   (c7_counter_in_range sampleConsts ⟨CMD_MENU_UP, 1⟩ ⟨CMD_MENU_UP, 200⟩ 0
      [0x10, 0x10, 0, 0x404] (by decide) (by decide)).2.2.1,
   (c7_counter_in_range sampleConsts ⟨CMD_MENU_UP, 1⟩ ⟨CMD_MENU_UP, 200⟩ 0
      [0x10, 0x10, 0, 0x404] (by decide) (by decide)).2.2.2.1 (by decide) (by decide)⟩

/-- C8: `cmd_pre` only changes at a confirmation. If `cmd_pre` after a call differs from
`cmd_pre` before it, then before the call the decoded command differed from `cmd_pre` and the
counter was `0`, and after the call the counter is `COMMAND_HISTORY_LENGTH`. In the pending
branch and in the no-change branch `cmd_pre` is left unchanged. -/
theorem c8_cmd_pre_changes_only_on_confirm (k : CtrlConsts) (s : DecoderState) (r : Nat) :
    ((ctrl_data_to_cmd k s r).2.cmd_pre ≠ s.cmd_pre →
      cmd_new k r ≠ s.cmd_pre ∧ s.cmd_history_cnt = 0 ∧
      (ctrl_data_to_cmd k s r).2.cmd_history_cnt = COMMAND_HISTORY_LENGTH) ∧
    (cmd_new k r ≠ s.cmd_pre → s.cmd_history_cnt ≠ 0 →
      (ctrl_data_to_cmd k s r).2.cmd_pre = s.cmd_pre) ∧
    (cmd_new k r = s.cmd_pre → (ctrl_data_to_cmd k s r).2.cmd_pre = s.cmd_pre) := by
  refine ⟨?_, ?_, ?_⟩
  · intro hchg
    by_cases heq : s.cmd_pre = cmd_new k r
    · rw [step_same k s r heq] at hchg; exact absurd rfl hchg
    · by_cases h0 : s.cmd_history_cnt = 0
      · exact ⟨fun h => heq h.symm, h0, by rw [step_confirm k s r heq h0]⟩
      · rw [step_pending k s r heq h0] at hchg; exact absurd rfl hchg
  · intro hne h0
    rw [step_pending k s r (fun h => hne h.symm) h0]
  · intro heq
    rw [step_same k s r heq.symm]

/-- Instance of C8 under the sample constants: from (`CMD_NON`, `0`) a D-pad-up word changes
`cmd_pre`, and the conclusion of the first part holds there. -/
theorem c8_cmd_pre_changes_only_on_confirm_witness :
    (ctrl_data_to_cmd sampleConsts ⟨CMD_NON, 0⟩ 0x10).2.cmd_pre ≠ CMD_NON ∧
    (cmd_new sampleConsts 0x10 ≠ CMD_NON ∧ (0 : Nat) = 0 ∧
      (ctrl_data_to_cmd sampleConsts ⟨CMD_NON, 0⟩ 0x10).2.cmd_history_cnt
        = COMMAND_HISTORY_LENGTH) :=
  ⟨by decide,
   (c8_cmd_pre_changes_only_on_confirm sampleConsts ⟨CMD_NON, 0⟩ 0x10).1 (by decide)⟩

/-! ## Candidate extraction -/

/-- The four logical directions of the menu. -/
inductive Direction
  | up
  | down
  | left
  | right
  deriving DecidableEq

/-- The D-pad label of a direction (`CTRL_DU_SETMASK`, ...). -/
def CtrlConsts.dpad (k : CtrlConsts) : Direction → Nat
  | .up => k.CTRL_DU_SETMASK
  | .down => k.CTRL_DD_SETMASK
  | .left => k.CTRL_DL_SETMASK
  | .right => k.CTRL_DR_SETMASK

/-- The C-button label of a direction (`CTRL_CU_SETMASK`, ...). -/
def CtrlConsts.cbtn (k : CtrlConsts) : Direction → Nat
  | .up => k.CTRL_CU_SETMASK
  | .down => k.CTRL_CD_SETMASK
  | .left => k.CTRL_CL_SETMASK
  | .right => k.CTRL_CR_SETMASK

/-- The menu command of a direction. -/
def Direction.menu_cmd : Direction → cmd_t
  | .up => CMD_MENU_UP
  | .down => CMD_MENU_DOWN
  | .left => CMD_MENU_LEFT
  | .right => CMD_MENU_RIGHT

/-- Two controller words are alias-equal when they are the same word, or when one masks to the
D-pad label and the other to the C-button label of one direction. -/
def alias_eq (k : CtrlConsts) (r1 r2 : Nat) : Prop :=
  r1 = r2 ∨ ∃ d : Direction,
    (digital k r1 = k.dpad d ∧ digital k r2 = k.cbtn d) ∨
    (digital k r1 = k.cbtn d ∧ digital k r2 = k.dpad d)

lemma labels_distinct_rev (k : CtrlConsts) (hk : k.labels_distinct) :
    k.case_labels.reverse.Nodup := List.nodup_reverse.mpr hk

lemma cmd_new_dpad (k : CtrlConsts) (hk : k.labels_distinct) (d : Direction) (r : Nat)
    (h : digital k r = k.dpad d) : cmd_new k r = d.menu_cmd := by
  have hk2 := labels_distinct_rev k hk
  simp only [CtrlConsts.case_labels, List.reverse_cons, List.reverse_nil, List.nil_append,
    List.cons_append, List.nodup_cons, List.mem_cons, List.mem_singleton, List.not_mem_nil,
    List.nodup_nil, not_or] at hk2
  cases d <;> simp only [CtrlConsts.dpad] at h <;>
    simp only [cmd_new, Direction.menu_cmd, h, hk2, if_false, if_true, false_or, or_false,
      true_or, or_true]

lemma cmd_new_cbtn (k : CtrlConsts) (hk : k.labels_distinct) (d : Direction) (r : Nat)
    (h : digital k r = k.cbtn d) : cmd_new k r = d.menu_cmd := by
  have hk2 := labels_distinct_rev k hk
  simp only [CtrlConsts.case_labels, List.reverse_cons, List.reverse_nil, List.nil_append,
    List.cons_append, List.nodup_cons, List.mem_cons, List.mem_singleton, List.not_mem_nil,
    List.nodup_nil, not_or] at hk2
  cases d <;> simp only [CtrlConsts.cbtn] at h <;>
    simp only [cmd_new, Direction.menu_cmd, h, hk2, if_false, if_true, false_or, or_false,
      true_or, or_true]

lemma step_congr (k : CtrlConsts) (s : DecoderState) (r1 r2 : Nat)
    (h : cmd_new k r1 = cmd_new k r2) : ctrl_data_to_cmd k s r1 = ctrl_data_to_cmd k s r2 := by
  simp only [ctrl_data_to_cmd, h]

lemma alias_eq_cmd_new (k : CtrlConsts) (hk : k.labels_distinct) (r1 r2 : Nat)
    (h : alias_eq k r1 r2) : cmd_new k r1 = cmd_new k r2 := by
  rcases h with h | ⟨d, ⟨h1, h2⟩ | ⟨h1, h2⟩⟩
  · rw [h]
  · rw [cmd_new_dpad k hk d r1 h1, cmd_new_cbtn k hk d r2 h2]
  · rw [cmd_new_cbtn k hk d r1 h1, cmd_new_dpad k hk d r2 h2]

lemma calls_alias (k : CtrlConsts) (hk : k.labels_distinct) (rs1 rs2 : List Nat)
    (h : List.Forall₂ (alias_eq k) rs1 rs2) :
    ∀ s : DecoderState, ctrl_calls k s rs1 = ctrl_calls k s rs2 := by
  induction h with
  | nil => intro s; rfl
  | cons hr _ ih =>
    intro s
    rw [ctrl_calls_cons, ctrl_calls_cons, step_congr k s _ _ (alias_eq_cmd_new k hk _ _ hr), ih]

/-- C9: aliasing. With pairwise distinct case labels, for each direction `d` a controller word
whose masked bits equal the D-pad label of `d` and one whose masked bits equal the C-button label
of `d` both decode to the menu command of `d`; from every statics the two calls return the same
command and leave the same statics; and two sequences of words that are position-wise equal or
D-pad/C-button swaps of one direction give the same returned commands and the same final
statics. -/
theorem c9_dpad_cbutton_alias (k : CtrlConsts) (hk : k.labels_distinct) (d : Direction)
    (r1 r2 : Nat) (s : DecoderState) (rs1 rs2 : List Nat)
    (h1 : digital k r1 = k.dpad d) (h2 : digital k r2 = k.cbtn d)
    (hrs : List.Forall₂ (alias_eq k) rs1 rs2) :
    cmd_new k r1 = d.menu_cmd ∧ cmd_new k r2 = d.menu_cmd ∧
    ctrl_data_to_cmd k s r1 = ctrl_data_to_cmd k s r2 ∧
    ctrl_calls k s rs1 = ctrl_calls k s rs2 := by
  have c1 := cmd_new_dpad k hk d r1 h1
  have c2 := cmd_new_cbtn k hk d r2 h2
  exact ⟨c1, c2, step_congr k s r1 r2 (by rw [c1, c2]), calls_alias k hk rs1 rs2 hrs s⟩

/-- Instance of C9 under the sample constants: D-pad left against C-left (with analog bits set
in the second word), and a three-word sequence with two swaps. -/
theorem c9_dpad_cbutton_alias_witness :
    sampleConsts.labels_distinct ∧
    (cmd_new sampleConsts 0x40 = CMD_MENU_LEFT ∧ cmd_new sampleConsts 0x7F004000 = CMD_MENU_LEFT ∧
     ctrl_data_to_cmd sampleConsts ⟨CMD_NON, 0⟩ 0x40 =
       ctrl_data_to_cmd sampleConsts ⟨CMD_NON, 0⟩ 0x7F004000 ∧
     ctrl_calls sampleConsts ⟨CMD_NON, 0⟩ [0x10, 0, 0x8000] =
       ctrl_calls sampleConsts ⟨CMD_NON, 0⟩ [0x1000, 0, 0x80]) :=
  ⟨by decide,
   c9_dpad_cbutton_alias sampleConsts (by decide) Direction.left 0x40 0x7F004000 ⟨CMD_NON, 0⟩
     [0x10, 0, 0x8000] [0x1000, 0, 0x80] (by decide) (by decide)
     (List.Forall₂.cons (Or.inr ⟨Direction.up, Or.inl ⟨by decide, by decide⟩⟩)
       (List.Forall₂.cons (Or.inl rfl)
         (List.Forall₂.cons (Or.inr ⟨Direction.right, Or.inr ⟨by decide, by decide⟩⟩)
           List.Forall₂.nil)))⟩

/-- C10: candidate extraction is a function of the masked controller word alone. With pairwise
distinct case labels, a masked word equal to a label decodes to the command of that label's
case, and a masked word equal to none of the seventeen labels decodes to `CMD_NON`; the result is
always a command, there is no error value. -/
theorem c10_candidate_table (k : CtrlConsts) (hk : k.labels_distinct) (r : Nat) :
    (digital k r = k.BTN_OPEN_OSDMENU → cmd_new k r = CMD_OPEN_MENU) ∧
    (digital k r = k.BTN_CLOSE_OSDMENU → cmd_new k r = CMD_CLOSE_MENU) ∧
    (digital k r = k.BTN_MUTE_OSDMENU → cmd_new k r = CMD_MUTE_MENU) ∧
    (digital k r = k.BTN_DEBLUR_QUICK_ON → cmd_new k r = CMD_DEBLUR_QUICK_ON) ∧
    (digital k r = k.BTN_DEBLUR_QUICK_OFF → cmd_new k r = CMD_DEBLUR_QUICK_OFF) ∧
    (digital k r = k.BTN_15BIT_QUICK_ON → cmd_new k r = CMD_15BIT_QUICK_ON) ∧
    (digital k r = k.BTN_15BIT_QUICK_OFF → cmd_new k r = CMD_15BIT_QUICK_OFF) ∧
    (digital k r = k.BTN_MENU_ENTER → cmd_new k r = CMD_MENU_ENTER) ∧
    (digital k r = k.BTN_MENU_BACK → cmd_new k r = CMD_MENU_BACK) ∧
    (digital k r = k.CTRL_DU_SETMASK → cmd_new k r = CMD_MENU_UP) ∧
    (digital k r = k.CTRL_CU_SETMASK → cmd_new k r = CMD_MENU_UP) ∧
    (digital k r = k.CTRL_DD_SETMASK → cmd_new k r = CMD_MENU_DOWN) ∧
    (digital k r = k.CTRL_CD_SETMASK → cmd_new k r = CMD_MENU_DOWN) ∧
    (digital k r = k.CTRL_DL_SETMASK → cmd_new k r = CMD_MENU_LEFT) ∧
    (digital k r = k.CTRL_CL_SETMASK → cmd_new k r = CMD_MENU_LEFT) ∧
    (digital k r = k.CTRL_DR_SETMASK → cmd_new k r = CMD_MENU_RIGHT) ∧
    (digital k r = k.CTRL_CR_SETMASK → cmd_new k r = CMD_MENU_RIGHT) ∧
    (digital k r ∉ k.case_labels → cmd_new k r = CMD_NON) := by
  have hk2 := labels_distinct_rev k hk
  simp only [CtrlConsts.case_labels, List.reverse_cons, List.reverse_nil, List.nil_append,
    List.cons_append, List.nodup_cons, List.mem_cons, List.mem_singleton, List.not_mem_nil,
    List.nodup_nil, not_or] at hk2
  refine ⟨?_, ?_, ?_, ?_, ?_, ?_, ?_, ?_, ?_, ?_, ?_, ?_, ?_, ?_, ?_, ?_, ?_, ?_⟩ <;>
    intro h <;> first
    | (simp only [cmd_new, h, hk2, if_false, if_true, false_or, or_false, true_or, or_true]
       done)
    | (simp only [CtrlConsts.case_labels, List.mem_cons, List.mem_singleton,
        List.not_mem_nil, not_or, or_false] at h
       simp only [cmd_new, h, if_false, false_or, or_false])

/-- Instance of C10 under the sample constants: the word `0x12340404` masks to the mute
pattern, and the word `0x3` (A and B together) masks to none of the labels. -/
theorem c10_candidate_table_witness :
    sampleConsts.labels_distinct ∧
    digital sampleConsts 0x12340404 = sampleConsts.BTN_MUTE_OSDMENU ∧
    cmd_new sampleConsts 0x12340404 = CMD_MUTE_MENU ∧
    digital sampleConsts 0x3 ∉ sampleConsts.case_labels ∧
    cmd_new sampleConsts 0x3 = CMD_NON :=
  ⟨by decide, by decide,
   (c10_candidate_table sampleConsts (by decide) 0x12340404).2.2.1 (by decide),
   by decide,
   (c10_candidate_table sampleConsts (by decide) 0x3).2.2.2.2.2.2.2.2.2.2.2.2.2.2.2.2.2
     (by decide)⟩

/-! ## Events -/

lemma events_nil : events [] = 0 := rfl

lemma events_cons (c : cmd_t) (cs : List cmd_t) :
    events (c :: cs) = events cs + (if c ≠ CMD_NON then 1 else 0) := by
  simp [events, List.countP_cons]

/-- A returned command other than `CMD_NON` comes from the confirmation branch. -/
lemma event_from_confirm (k : CtrlConsts) (s : DecoderState) (r : Nat)
    (h : (ctrl_data_to_cmd k s r).1 ≠ CMD_NON) :
    cmd_new k r ≠ s.cmd_pre ∧ s.cmd_history_cnt = 0 := by
  by_cases heq : s.cmd_pre = cmd_new k r
  · rw [step_same k s r heq] at h; exact absurd rfl h
  · by_cases h0 : s.cmd_history_cnt = 0
    · exact ⟨fun e => heq e.symm, h0⟩
    · rw [step_pending k s r heq h0] at h; exact absurd rfl h

/-- Statics from which a held controller word decoding to `c` produces no event: either `c` is
already stable, or `c` is `CMD_NON` and the stable command is not `CMD_MUTE_MENU`. -/
def quiet (c : cmd_t) (s : DecoderState) : Prop :=
  s.cmd_pre = c ∨ (c = CMD_NON ∧ s.cmd_pre ≠ CMD_MUTE_MENU)

lemma quiet_step (k : CtrlConsts) (s : DecoderState) (r : Nat)
    (hq : quiet (cmd_new k r) s) :
    (ctrl_data_to_cmd k s r).1 = CMD_NON ∧ quiet (cmd_new k r) (ctrl_data_to_cmd k s r).2 := by
  by_cases heq : s.cmd_pre = cmd_new k r
  · rw [step_same k s r heq]; exact ⟨rfl, Or.inl heq⟩
  · rcases hq with hq | ⟨hc, hm⟩
    · exact absurd hq heq
    · by_cases h0 : s.cmd_history_cnt = 0
      · rw [step_confirm k s r heq h0]
        simp [hm, hc, quiet]
      · rw [step_pending k s r heq h0]
        exact ⟨rfl, Or.inr ⟨hc, hm⟩⟩

lemma confirm_lands_quiet (k : CtrlConsts) (s : DecoderState) (r : Nat)
    (hne : s.cmd_pre ≠ cmd_new k r) (h0 : s.cmd_history_cnt = 0) :
    quiet (cmd_new k r) (ctrl_data_to_cmd k s r).2 := by
  rw [step_confirm k s r hne h0]
  by_cases hm : s.cmd_pre = CMD_MUTE_MENU ∧ cmd_new k r = CMD_NON
  · simp [hm, quiet]
  · simp [hm, quiet]

lemma quiet_calls (k : CtrlConsts) (r : Nat) (n : Nat) :
    ∀ s : DecoderState, quiet (cmd_new k r) s →
      events (ctrl_calls k s (List.replicate n r)).1 = 0 := by
  induction n with
  | zero => intro s _; rfl
  | succ n ih =>
    intro s hq
    obtain ⟨ho, hq2⟩ := quiet_step k s r hq
    rw [List.replicate_succ, ctrl_calls_cons, events_cons, ih _ hq2, ho]
    simp

lemma held_events_le_one (k : CtrlConsts) (r : Nat) (n : Nat) :
    ∀ s : DecoderState, events (ctrl_calls k s (List.replicate n r)).1 ≤ 1 := by
  induction n with
  | zero => intro s; simp [ctrl_calls_nil, events_nil]
  | succ n ih =>
    intro s
    rw [List.replicate_succ, ctrl_calls_cons, events_cons]
    by_cases heq : s.cmd_pre = cmd_new k r
    · have hq := quiet_step k s r (Or.inl heq)
      rw [quiet_calls k r n _ hq.2, hq.1]
      simp
    · by_cases h0 : s.cmd_history_cnt = 0
      · rw [quiet_calls k r n _ (confirm_lands_quiet k s r heq h0)]
        split_ifs <;> simp
      · have ho : (ctrl_data_to_cmd k s r).1 = CMD_NON := by
          rw [step_pending k s r heq h0]
        rw [ho]
        simpa using ih _

/-- C11: edge-triggered, one-shot output. For every statics (whatever the counter, in particular
when it is at most `COMMAND_HISTORY_LENGTH`), every controller word `r` and every `n`, among `n`
consecutive calls with `r` at most one returns a command other than `CMD_NON`. -/
theorem c11_held_word_at_most_one_event (k : CtrlConsts) (s : DecoderState) (r : Nat) (n : Nat) :
    events (ctrl_calls k s (List.replicate n r)).1 ≤ 1 :=
  held_events_le_one k r n s

/-- Instance of C11 under the sample constants: the all-released word held for six calls after a
stable mute gives the single event `CMD_UNMUTE_MENU`. -/
theorem c11_held_word_at_most_one_event_witness :
    (ctrl_calls sampleConsts ⟨CMD_MUTE_MENU, 1⟩ (List.replicate 6 0)).1 =
      [CMD_NON, CMD_UNMUTE_MENU, CMD_NON, CMD_NON, CMD_NON, CMD_NON] ∧
    events (ctrl_calls sampleConsts ⟨CMD_MUTE_MENU, 1⟩ (List.replicate 6 0)).1 ≤ 1 :=
  ⟨by decide, c11_held_word_at_most_one_event sampleConsts ⟨CMD_MUTE_MENU, 1⟩ 0 6⟩

/-! ## Refinement of the spec state machine -/

/-- C12 (as stated, refuted): with the sample constants, after a mute release and two further
all-released words, a D-pad-up word is answered with `CMD_NON` by `ctrl_data_to_cmd` and with
`CMD_MENU_UP` by the state machine of spec section 4.1; the two output sequences differ. -/
theorem c12_counterexample :
    (ctrl_calls sampleConsts DecoderState.init [0x404, 0x404, 0, 0, 0, 0, 0x10]).1 =
      [CMD_NON, CMD_MUTE_MENU, CMD_NON, CMD_UNMUTE_MENU, CMD_NON, CMD_NON, CMD_NON] ∧
    spec_outputs (spec_decode sampleConsts) SpecState.start [0x404, 0x404, 0, 0, 0, 0, 0x10] =
      [CMD_NON, CMD_MUTE_MENU, CMD_NON, CMD_UNMUTE_MENU, CMD_NON, CMD_NON, CMD_MENU_UP] ∧
    (ctrl_calls sampleConsts DecoderState.init [0x404, 0x404, 0, 0, 0, 0, 0x10]).1 ≠
      spec_outputs (spec_decode sampleConsts) SpecState.start
        [0x404, 0x404, 0, 0, 0, 0, 0x10] := by
  decide

/-- One call of `ctrl_data_to_cmd` and one step of `spec_decode_emitted` agree on statics that
hold the same command and the same counter, when that counter is an `alt_u8` value. -/
lemma emitted_step_agrees (k : CtrlConsts) (s : DecoderState) (r : Nat)
    (h : s.cmd_history_cnt < 256) :
    (ctrl_data_to_cmd k s r).1 =
      (spec_decode_emitted k ⟨s.cmd_pre, s.cmd_history_cnt⟩ r).1 ∧
    (⟨(ctrl_data_to_cmd k s r).2.cmd_pre, (ctrl_data_to_cmd k s r).2.cmd_history_cnt⟩ : SpecState)
      = (spec_decode_emitted k ⟨s.cmd_pre, s.cmd_history_cnt⟩ r).2 ∧
    (ctrl_data_to_cmd k s r).2.cmd_history_cnt < 256 := by
  by_cases heq : s.cmd_pre = cmd_new k r
  · rw [step_same k s r heq]
    refine ⟨?_, ?_, ?_⟩
    · simp [spec_decode_emitted, heq]
    · simp [spec_decode_emitted, heq]
    · show (if cmd_new k r = CMD_NON then 0 else COMMAND_HISTORY_LENGTH) < 256
      split_ifs <;> simp [COMMAND_HISTORY_LENGTH]
  · have hne : cmd_new k r ≠ s.cmd_pre := fun hh => heq hh.symm
    by_cases h0 : s.cmd_history_cnt = 0
    · rw [step_confirm k s r heq h0]
      refine ⟨?_, ?_, ?_⟩
      · simp [spec_decode_emitted, hne, h0]
      · simp [spec_decode_emitted, hne, h0]
      · simp [COMMAND_HISTORY_LENGTH]
    · have hd : alt_u8_dec s.cmd_history_cnt = s.cmd_history_cnt - 1 := by
        simp only [alt_u8_dec]; omega
      rw [step_pending k s r heq h0, hd]
      refine ⟨?_, ?_, ?_⟩
      · simp [spec_decode_emitted, hne, h0]
      · simp [spec_decode_emitted, hne, h0]
      · show s.cmd_history_cnt - 1 < 256
        omega

lemma emitted_outputs_agree (k : CtrlConsts) (rs : List Nat) :
    ∀ s : DecoderState, s.cmd_history_cnt < 256 →
      (ctrl_calls k s rs).1 =
        spec_outputs (spec_decode_emitted k) ⟨s.cmd_pre, s.cmd_history_cnt⟩ rs := by
  induction rs with
  | nil => intro s _; rfl
  | cons r rs ih =>
    intro s hs
    obtain ⟨h1, h2, h3⟩ := emitted_step_agrees k s r hs
    rw [ctrl_calls_cons]
    simp only [spec_outputs]
    rw [← h1, ← h2, ih _ h3]

/-- C12 (amended): `ctrl_data_to_cmd`, run from its initial statics, returns on every finite
sequence of controller words the same sequence of commands as the state machine of spec section
4.1, Step 2, in which `lastStable` is set on confirmation to the returned (possibly overridden)
command, run from (`lastStable = NONE`, `pendingStreak = HISTORY_LENGTH`). -/
theorem c12_refines_emitted_machine (k : CtrlConsts) (rs : List Nat) :
    (ctrl_calls k DecoderState.init rs).1 =
      spec_outputs (spec_decode_emitted k) SpecState.start rs :=
  emitted_outputs_agree k rs DecoderState.init (by decide)

/-! ## The branches, one by one -/

/-- C13: the confirmation branch is the only source of events. If a call returns a command other
than `CMD_NON`, then before the call the decoded command differed from `cmd_pre` and the counter
was `0`. When the decoded command differs from `cmd_pre` and the counter (an `alt_u8` value) is
positive, the call returns `CMD_NON`, lowers the counter by exactly one and keeps `cmd_pre`. -/
theorem c13_events_only_from_confirmation (k : CtrlConsts) (s : DecoderState) (r : Nat)
    (hs : s.cmd_history_cnt < 256) :
    ((ctrl_data_to_cmd k s r).1 ≠ CMD_NON →
      cmd_new k r ≠ s.cmd_pre ∧ s.cmd_history_cnt = 0) ∧
    (cmd_new k r ≠ s.cmd_pre → 0 < s.cmd_history_cnt →
      (ctrl_data_to_cmd k s r).1 = CMD_NON ∧
      (ctrl_data_to_cmd k s r).2.cmd_history_cnt + 1 = s.cmd_history_cnt ∧
      (ctrl_data_to_cmd k s r).2.cmd_pre = s.cmd_pre) := by
  refine ⟨event_from_confirm k s r, ?_⟩
  intro hne hpos
  rw [step_pending k s r (fun e => hne e.symm) (Nat.pos_iff_ne_zero.mp hpos)]
  refine ⟨rfl, ?_, rfl⟩
  show alt_u8_dec s.cmd_history_cnt + 1 = s.cmd_history_cnt
  simp only [alt_u8_dec]
  omega

/-- Instance of C13 under the sample constants: with `CMD_MENU_UP` stable and counter `1`, an
all-released word is pending. -/
theorem c13_events_only_from_confirmation_witness :
    (1 : Nat) < 256 ∧ cmd_new sampleConsts 0 ≠ CMD_MENU_UP ∧
    ((ctrl_data_to_cmd sampleConsts ⟨CMD_MENU_UP, 1⟩ 0).1 = CMD_NON ∧
     (ctrl_data_to_cmd sampleConsts ⟨CMD_MENU_UP, 1⟩ 0).2.cmd_history_cnt + 1 = 1 ∧
     (ctrl_data_to_cmd sampleConsts ⟨CMD_MENU_UP, 1⟩ 0).2.cmd_pre = CMD_MENU_UP) :=
  ⟨by decide, by decide,
   (c13_events_only_from_confirmation sampleConsts ⟨CMD_MENU_UP, 1⟩ 0 (by decide)).2
     (by decide) (by decide)⟩

/-- C14: confirmation outside the mute special case. With counter `0` and a decoded command `c`
different from `cmd_pre`, unless `cmd_pre = CMD_MUTE_MENU` and `c = CMD_NON`, the call returns
exactly `c`, stores `cmd_pre = c` and resets the counter to `COMMAND_HISTORY_LENGTH`, which
is `1`. -/
theorem c14_confirmation_returns_candidate (k : CtrlConsts) (s : DecoderState) (r : Nat)
    (h0 : s.cmd_history_cnt = 0) (hne : cmd_new k r ≠ s.cmd_pre)
    (hm : ¬ (s.cmd_pre = CMD_MUTE_MENU ∧ cmd_new k r = CMD_NON)) :
    (ctrl_data_to_cmd k s r).1 = cmd_new k r ∧
    (ctrl_data_to_cmd k s r).2.cmd_pre = cmd_new k r ∧
    (ctrl_data_to_cmd k s r).2.cmd_history_cnt = COMMAND_HISTORY_LENGTH ∧
    COMMAND_HISTORY_LENGTH = 1 := by
  rw [step_confirm k s r (fun e => hne e.symm) h0]
  simp [hm, COMMAND_HISTORY_LENGTH]

/-- Instance of C14 under the sample constants: from (`CMD_MENU_UP`, `0`) the enter pattern is
confirmed. -/
theorem c14_confirmation_returns_candidate_witness :
    cmd_new sampleConsts 0x1 = CMD_MENU_ENTER ∧
    ((ctrl_data_to_cmd sampleConsts ⟨CMD_MENU_UP, 0⟩ 0x1).1 = cmd_new sampleConsts 0x1 ∧
     (ctrl_data_to_cmd sampleConsts ⟨CMD_MENU_UP, 0⟩ 0x1).2.cmd_pre = cmd_new sampleConsts 0x1 ∧
     (ctrl_data_to_cmd sampleConsts ⟨CMD_MENU_UP, 0⟩ 0x1).2.cmd_history_cnt
       = COMMAND_HISTORY_LENGTH ∧
     COMMAND_HISTORY_LENGTH = 1) :=
  ⟨by decide,
   c14_confirmation_returns_candidate sampleConsts ⟨CMD_MENU_UP, 0⟩ 0x1 rfl
     (by decide) (by decide)⟩

/-- C15: asymmetric reset in the no-change branch. When the decoded command equals `cmd_pre`,
the call returns `CMD_NON`, leaves `cmd_pre` unchanged and sets the counter to `0` if the
decoded command is `CMD_NON` and to `COMMAND_HISTORY_LENGTH`, which is `1`, otherwise, whatever
the counter was before. -/
theorem c15_no_change_reset (k : CtrlConsts) (s : DecoderState) (r : Nat)
    (heq : cmd_new k r = s.cmd_pre) :
    (ctrl_data_to_cmd k s r).1 = CMD_NON ∧
    (ctrl_data_to_cmd k s r).2.cmd_pre = s.cmd_pre ∧
    (cmd_new k r = CMD_NON → (ctrl_data_to_cmd k s r).2.cmd_history_cnt = 0) ∧
    (cmd_new k r ≠ CMD_NON → (ctrl_data_to_cmd k s r).2.cmd_history_cnt = 1) := by
  rw [step_same k s r heq.symm]
  refine ⟨rfl, rfl, ?_, ?_⟩
  · intro hc; simp [hc]
  · intro hc; simp [hc, COMMAND_HISTORY_LENGTH]

/-- Instance of C15 under the sample constants: `CMD_MENU_UP` stable with counter `0` and a
C-up word, and idle statics with counter `9` and an all-released word. -/
theorem c15_no_change_reset_witness :
    cmd_new sampleConsts 0x1000 = CMD_MENU_UP ∧
    (ctrl_data_to_cmd sampleConsts ⟨CMD_MENU_UP, 0⟩ 0x1000).2.cmd_history_cnt = 1 ∧
    (ctrl_data_to_cmd sampleConsts ⟨CMD_NON, 9⟩ 0).2.cmd_history_cnt = 0 :=
  ⟨by decide,
   (c15_no_change_reset sampleConsts ⟨CMD_MENU_UP, 0⟩ 0x1000 (by decide)).2.2.2 (by decide),
   (c15_no_change_reset sampleConsts ⟨CMD_NON, 9⟩ 0 (by decide)).2.2.1 (by decide)⟩

/-! ## Release and settling -/

/-- From statics with `cmd_pre = CMD_NON`, words decoding to `CMD_NON` return `CMD_NON` on every
call and keep `cmd_pre = CMD_NON`. -/
lemma idle_calls_any (k : CtrlConsts) (rs : List Nat) (hrs : ∀ x ∈ rs, cmd_new k x = CMD_NON) :
    ∀ s : DecoderState, s.cmd_pre = CMD_NON →
      (ctrl_calls k s rs).1 = List.replicate rs.length CMD_NON ∧
      (ctrl_calls k s rs).2.cmd_pre = CMD_NON := by
  induction rs with
  | nil => intro s hs; exact ⟨rfl, hs⟩
  | cons r rs ih =>
    intro s hs
    have hr : cmd_new k r = CMD_NON := hrs r (List.mem_cons_self r rs)
    have e : ctrl_data_to_cmd k s r = (CMD_NON, ⟨CMD_NON, 0⟩) := by
      rw [step_same k s r (by rw [hs, hr])]; simp [hs, hr]
    obtain ⟨i1, i2⟩ := ih (fun x hx => hrs x (List.mem_cons_of_mem r hx)) ⟨CMD_NON, 0⟩ rfl
    rw [ctrl_calls_cons, e]
    exact ⟨by simp [i1, List.replicate_succ], i2⟩

/-- C16: silent release. With a command `c` other than `CMD_NON` and `CMD_MUTE_MENU` stable
(`cmd_pre = c`, counter at `COMMAND_HISTORY_LENGTH`), any number of consecutive calls with words
decoding to `CMD_NON` return `CMD_NON` on every call, and from the second such call on
`cmd_pre` is `CMD_NON`. -/
theorem c16_silent_release (k : CtrlConsts) (c : cmd_t) (rs : List Nat)
    (hc : c ≠ CMD_NON) (hm : c ≠ CMD_MUTE_MENU) (hrs : ∀ x ∈ rs, cmd_new k x = CMD_NON) :
    (ctrl_calls k ⟨c, COMMAND_HISTORY_LENGTH⟩ rs).1 = List.replicate rs.length CMD_NON ∧
    (2 ≤ rs.length → (ctrl_calls k ⟨c, COMMAND_HISTORY_LENGTH⟩ rs).2.cmd_pre = CMD_NON) := by
  match rs, hrs with
  | [], _ => exact ⟨rfl, fun h => absurd h (by decide)⟩
  | [r1], hrs =>
    have h1 : cmd_new k r1 = CMD_NON := hrs r1 (by simp)
    have e1 : ctrl_data_to_cmd k ⟨c, COMMAND_HISTORY_LENGTH⟩ r1 = (CMD_NON, ⟨c, 0⟩) := by
      rw [step_pending k _ r1 (by rw [h1]; exact hc) (by simp [COMMAND_HISTORY_LENGTH])]
      simp [alt_u8_dec, COMMAND_HISTORY_LENGTH]
    refine ⟨by simp [ctrl_calls_cons, ctrl_calls_nil, e1], fun h => absurd h (by simp)⟩
  | r1 :: r2 :: rest, hrs =>
    have h1 : cmd_new k r1 = CMD_NON := hrs r1 (by simp)
    have h2 : cmd_new k r2 = CMD_NON := hrs r2 (by simp)
    have e1 : ctrl_data_to_cmd k ⟨c, COMMAND_HISTORY_LENGTH⟩ r1 = (CMD_NON, ⟨c, 0⟩) := by
      rw [step_pending k _ r1 (by rw [h1]; exact hc) (by simp [COMMAND_HISTORY_LENGTH])]
      simp [alt_u8_dec, COMMAND_HISTORY_LENGTH]
    have e2 : ctrl_data_to_cmd k ⟨c, 0⟩ r2 = (CMD_NON, ⟨CMD_NON, COMMAND_HISTORY_LENGTH⟩) := by
      rw [step_confirm k _ r2 (by rw [h2]; exact hc) rfl]; simp [h2, hm]
    obtain ⟨i1, i2⟩ := idle_calls_any k rest (fun x hx => hrs x (by simp [hx]))
      ⟨CMD_NON, COMMAND_HISTORY_LENGTH⟩ rfl
    rw [ctrl_calls_cons, e1]
    simp only []
    rw [ctrl_calls_cons, e2]
    simp only []
    exact ⟨by simp [i1, List.replicate_succ], fun _ => i2⟩

/-- Instance of C16 under the sample constants: `CMD_MENU_UP` stable, four all-released words. -/
theorem c16_silent_release_witness :
    cmd_new sampleConsts 0 = CMD_NON ∧
    ((ctrl_calls sampleConsts ⟨CMD_MENU_UP, COMMAND_HISTORY_LENGTH⟩ [0, 0, 0, 0]).1
       = List.replicate 4 CMD_NON ∧
     (2 ≤ 4 → (ctrl_calls sampleConsts ⟨CMD_MENU_UP, COMMAND_HISTORY_LENGTH⟩
       [0, 0, 0, 0]).2.cmd_pre = CMD_NON)) :=
  ⟨by decide,
   c16_silent_release sampleConsts CMD_MENU_UP [0, 0, 0, 0] (by decide) (by decide) (by decide)⟩

/-- A masked controller word equal to none of the case labels leaves `cmd_new` at `CMD_NON`. -/
lemma cmd_new_unmatched (k : CtrlConsts) (r : Nat) (h : digital k r ∉ k.case_labels) :
    cmd_new k r = CMD_NON := by
  simp only [CtrlConsts.case_labels, List.mem_cons, List.mem_singleton, List.not_mem_nil,
    not_or, or_false] at h
  simp only [cmd_new, h, if_false, false_or, or_false]

lemma ctrl_calls_append (k : CtrlConsts) (xs ys : List Nat) :
    ∀ s : DecoderState,
      (ctrl_calls k s (xs ++ ys)).2 = (ctrl_calls k (ctrl_calls k s xs).2 ys).2 := by
  induction xs with
  | nil => intro s; rfl
  | cons x xs ih => intro s; simp only [List.cons_append, ctrl_calls_cons, ih]

/-- Five calls with words decoding to `CMD_NON` bring any statics with counter at most
`COMMAND_HISTORY_LENGTH` to (`CMD_NON`, `0`). -/
lemma settle_five (k : CtrlConsts) (s : DecoderState) (a b c d e : Nat)
    (hs : s.cmd_history_cnt ≤ COMMAND_HISTORY_LENGTH)
    (ha : cmd_new k a = CMD_NON) (hb : cmd_new k b = CMD_NON) (hc : cmd_new k c = CMD_NON)
    (hd : cmd_new k d = CMD_NON) (he : cmd_new k e = CMD_NON) :
    (ctrl_calls k s [a, b, c, d, e]).2 = ⟨CMD_NON, 0⟩ := by
  obtain ⟨p, n⟩ := s
  have hn : n = 0 ∨ n = 1 := by
    simp only [COMMAND_HISTORY_LENGTH] at hs; omega
  rcases hn with hn | hn <;> subst hn <;> cases p <;>
    simp [ctrl_calls_cons, ctrl_calls_nil, ctrl_data_to_cmd, ha, hb, hc, hd, he,
      COMMAND_HISTORY_LENGTH, alt_u8_dec]

/-- C17: settling on unmatched input, with the bound `5`. From every statics with counter at
most `COMMAND_HISTORY_LENGTH`, after five or more consecutive calls with controller words whose
masked bits equal none of the case labels the statics are (`CMD_NON`, `0`); every further such
call returns `CMD_NON` and leaves these statics unchanged. -/
theorem c17_unmatched_input_settles (k : CtrlConsts) (s : DecoderState) (rs : List Nat) (r : Nat)
    (hs : s.cmd_history_cnt ≤ COMMAND_HISTORY_LENGTH) (hlen : 5 ≤ rs.length)
    (hrs : ∀ x ∈ rs, digital k x ∉ k.case_labels) (hr : digital k r ∉ k.case_labels) :
    (ctrl_calls k s rs).2 = ⟨CMD_NON, 0⟩ ∧
    ctrl_data_to_cmd k ⟨CMD_NON, 0⟩ r = (CMD_NON, ⟨CMD_NON, 0⟩) := by
  have hN : ∀ x ∈ rs, cmd_new k x = CMD_NON := fun x hx => cmd_new_unmatched k x (hrs x hx)
  constructor
  · match rs, hlen, hN with
    | a :: b :: c :: d :: e :: rest, _, hN =>
      have h5 := settle_five k s a b c d e hs (hN a (by simp)) (hN b (by simp))
        (hN c (by simp)) (hN d (by simp)) (hN e (by simp))
      have happ := ctrl_calls_append k [a, b, c, d, e] rest s
      simp only [List.cons_append, List.nil_append] at happ
      rw [happ, h5, idle_calls k rest (fun x hx => hN x (by simp [hx]))]
  · have hr2 := cmd_new_unmatched k r hr
    rw [step_same k _ r (by rw [hr2])]; simp [hr2]

/-- Instance of C17 under the sample constants: from a stable mute, five words pressing A and B
together (no case label) settle the statics; from there the same word changes nothing. -/
theorem c17_unmatched_input_settles_witness :
    digital sampleConsts 0x3 ∉ sampleConsts.case_labels ∧
    (ctrl_calls sampleConsts ⟨CMD_MUTE_MENU, 1⟩ [0x3, 0x3, 0x3, 0x3]).2 ≠ ⟨CMD_NON, 0⟩ ∧
    ((ctrl_calls sampleConsts ⟨CMD_MUTE_MENU, 1⟩ [0x3, 0x3, 0x3, 0x3, 0x3]).2 = ⟨CMD_NON, 0⟩ ∧
     ctrl_data_to_cmd sampleConsts ⟨CMD_NON, 0⟩ 0x3 = (CMD_NON, ⟨CMD_NON, 0⟩)) :=
  ⟨by decide, by decide,
   c17_unmatched_input_settles sampleConsts ⟨CMD_MUTE_MENU, 1⟩ [0x3, 0x3, 0x3, 0x3, 0x3] 0x3
     (by decide) (by decide) (by decide) (by decide)⟩

/-! ## Unmute, event spacing and masking -/

lemma ite_ne_of {p : Prop} [Decidable p] {a b x : cmd_t} (ha : a ≠ x) (hb : b ≠ x) :
    (if p then a else b) ≠ x := by
  by_cases hp : p
  · rw [if_pos hp]; exact ha
  · rw [if_neg hp]; exact hb

/-- No case of the `switch` assigns `CMD_UNMUTE_MENU`. -/
lemma cmd_new_ne_unmute (k : CtrlConsts) (r : Nat) : cmd_new k r ≠ CMD_UNMUTE_MENU := by
  unfold cmd_new
  dsimp only
  iterate 13 (apply ite_ne_of (by decide))
  decide

/-- C18: `CMD_UNMUTE_MENU` is produced only by the mute-release override. The `switch` never
decodes a controller word to `CMD_UNMUTE_MENU`, and a call returns `CMD_UNMUTE_MENU` if and only
if, before the call, `cmd_pre = CMD_MUTE_MENU`, the decoded command is `CMD_NON` and the
counter is `0`. -/
theorem c18_unmute_only_from_override (k : CtrlConsts) (s : DecoderState) (r : Nat) :
    cmd_new k r ≠ CMD_UNMUTE_MENU ∧
    ((ctrl_data_to_cmd k s r).1 = CMD_UNMUTE_MENU ↔
      s.cmd_pre = CMD_MUTE_MENU ∧ cmd_new k r = CMD_NON ∧ s.cmd_history_cnt = 0) := by
  have hu := cmd_new_ne_unmute k r
  refine ⟨hu, ?_, ?_⟩
  · intro h
    have hev : (ctrl_data_to_cmd k s r).1 ≠ CMD_NON := by rw [h]; decide
    obtain ⟨hne, h0⟩ := event_from_confirm k s r hev
    rw [step_confirm k s r (fun e => hne e.symm) h0] at h
    by_cases hm : s.cmd_pre = CMD_MUTE_MENU ∧ cmd_new k r = CMD_NON
    · exact ⟨hm.1, hm.2, h0⟩
    · rw [if_neg hm] at h; exact absurd h hu
  · rintro ⟨hp, hc, h0⟩
    rw [step_confirm k s r (by rw [hp, hc]; decide) h0]
    simp [hp, hc]

/-- Instance of C18 under the sample constants: the confirming call of a mute release. -/
theorem c18_unmute_only_from_override_witness :
    cmd_new sampleConsts 0 = CMD_NON ∧
    (ctrl_data_to_cmd sampleConsts ⟨CMD_MUTE_MENU, 0⟩ 0).1 = CMD_UNMUTE_MENU :=
  ⟨by decide,
   (c18_unmute_only_from_override sampleConsts ⟨CMD_MUTE_MENU, 0⟩ 0).2.mpr
     ⟨rfl, by decide, rfl⟩⟩

/-- After a call that took the confirmation branch the next call returns `CMD_NON`. -/
lemma after_confirm_silent (k : CtrlConsts) (s : DecoderState) (r1 r2 : Nat)
    (hne : s.cmd_pre ≠ cmd_new k r1) (h0 : s.cmd_history_cnt = 0) :
    (ctrl_data_to_cmd k (ctrl_data_to_cmd k s r1).2 r2).1 = CMD_NON := by
  have hcnt : (ctrl_data_to_cmd k s r1).2.cmd_history_cnt ≠ 0 := by
    rw [step_confirm k s r1 hne h0]; simp [COMMAND_HISTORY_LENGTH]
  by_cases heq : (ctrl_data_to_cmd k s r1).2.cmd_pre = cmd_new k r2
  · rw [step_same k _ r2 heq]
  · rw [step_pending k _ r2 heq hcnt]

/-- C19: minimum event spacing with `COMMAND_HISTORY_LENGTH = 1`. If a call takes the
confirmation branch (in particular if it returns a command other than `CMD_NON`), the
immediately following call returns `CMD_NON`, whatever the two controller words; so no two
consecutive calls both return a command other than `CMD_NON`. -/
theorem c19_no_two_consecutive_events (k : CtrlConsts) (s : DecoderState) (r1 r2 : Nat) :
    (s.cmd_pre ≠ cmd_new k r1 → s.cmd_history_cnt = 0 →
      (ctrl_data_to_cmd k (ctrl_data_to_cmd k s r1).2 r2).1 = CMD_NON) ∧
    ((ctrl_data_to_cmd k s r1).1 ≠ CMD_NON →
      (ctrl_data_to_cmd k (ctrl_data_to_cmd k s r1).2 r2).1 = CMD_NON) ∧
    ¬ ((ctrl_data_to_cmd k s r1).1 ≠ CMD_NON ∧
       (ctrl_data_to_cmd k (ctrl_data_to_cmd k s r1).2 r2).1 ≠ CMD_NON) := by
  have key : (ctrl_data_to_cmd k s r1).1 ≠ CMD_NON →
      (ctrl_data_to_cmd k (ctrl_data_to_cmd k s r1).2 r2).1 = CMD_NON := by
    intro hev
    obtain ⟨hne, h0⟩ := event_from_confirm k s r1 hev
    exact after_confirm_silent k s r1 r2 (fun e => hne e.symm) h0
  exact ⟨after_confirm_silent k s r1 r2, key, fun h => h.2 (key h.1)⟩

/-- Instance of C19 under the sample constants: from (`CMD_NON`, `0`) a D-pad-up word is
confirmed at once and the enter pattern on the next call returns `CMD_NON`. -/
theorem c19_no_two_consecutive_events_witness :
    (ctrl_data_to_cmd sampleConsts ⟨CMD_NON, 0⟩ 0x10).1 = CMD_MENU_UP ∧
    cmd_new sampleConsts 0x1 = CMD_MENU_ENTER ∧
    (ctrl_data_to_cmd sampleConsts (ctrl_data_to_cmd sampleConsts ⟨CMD_NON, 0⟩ 0x10).2 0x1).1
      = CMD_NON :=
  ⟨by decide, by decide,
   (c19_no_two_consecutive_events sampleConsts ⟨CMD_NON, 0⟩ 0x10 0x1).2.1 (by decide)⟩

/-- C20: only the masked digital bits influence the decoder. Two controller words with the same
value of `word & CTRL_GETALL_DIGITAL_MASK` decode to the same command and, from every statics,
give the same returned command and the same statics after the call. -/
theorem c20_only_masked_bits_matter (k : CtrlConsts) (s : DecoderState) (r1 r2 : Nat)
    (h : r1 &&& k.CTRL_GETALL_DIGITAL_MASK = r2 &&& k.CTRL_GETALL_DIGITAL_MASK) :
    cmd_new k r1 = cmd_new k r2 ∧ ctrl_data_to_cmd k s r1 = ctrl_data_to_cmd k s r2 := by
  have hd : digital k r1 = digital k r2 := h
  have hc : cmd_new k r1 = cmd_new k r2 := by
    unfold cmd_new
    rw [hd]
  exact ⟨hc, step_congr k s r1 r2 hc⟩

/-- Instance of C20 under the sample constants: two words that differ only in the analog-axis
bits above the low sixteen. -/
theorem c20_only_masked_bits_matter_witness :
    0x10 &&& sampleConsts.CTRL_GETALL_DIGITAL_MASK
      = 0x7F810010 &&& sampleConsts.CTRL_GETALL_DIGITAL_MASK ∧
    (cmd_new sampleConsts 0x10 = cmd_new sampleConsts 0x7F810010 ∧
     ctrl_data_to_cmd sampleConsts ⟨CMD_NON, 0⟩ 0x10 =
       ctrl_data_to_cmd sampleConsts ⟨CMD_NON, 0⟩ 0x7F810010) :=
  ⟨by decide, c20_only_masked_bits_matter sampleConsts ⟨CMD_NON, 0⟩ 0x10 0x7F810010 (by decide)⟩

end N64
